import Mathlib

/-!
Shallow embedding of the geometric point-cloud core of `vedo/pointcloud.py`
(point store with lazily applied pose, global least-squares fitters, and the
moving-least-squares smoothers), together with theorems settling the frozen
claims about it.

Conventions used throughout:
* machine floats are modelled by an arbitrary linearly ordered field `α`
  (instantiated with `ℚ` for executable witnesses and with `ℝ` where a
  genuine square root is needed);
* `np.sqrt` is passed in as an explicit function parameter `sqrtF`;
* `np.linalg.svd` and `scipy.stats.f.ppf` are external numerical routines:
  each is modelled as an oracle (an arbitrary function of the same shape as
  the call site), so every theorem quantifies over all possible outputs of
  the external routine, constrained only by the properties the claim needs;
* `np.linalg.lstsq` output is modelled by the record `LstsqOut` (solution,
  residual list, reported rank), with hypotheses tying the reported rank to
  the mathematical rank of the coefficient matrix and the solution to the
  least-squares minimisation property.
-/

/-- A 3D coordinate triple, as handled row-wise by the numpy code. -/
abbrev V3 (α : Type) := α × α × α

section Vec

variable {α : Type} [LinearOrderedField α]

/-- Componentwise sum of two coordinate triples. -/
def add3 (p q : V3 α) : V3 α := (p.1 + q.1, p.2.1 + q.2.1, p.2.2 + q.2.2)

/-- Componentwise difference of two coordinate triples. -/
def sub3 (p q : V3 α) : V3 α := (p.1 - q.1, p.2.1 - q.2.1, p.2.2 - q.2.2)

/-- Scalar multiple of a coordinate triple. -/
def smul3 (c : α) (p : V3 α) : V3 α := (c * p.1, c * p.2.1, c * p.2.2)

/-- Euclidean dot product of two coordinate triples. -/
def dot3 (p q : V3 α) : α := p.1 * q.1 + p.2.1 * q.2.1 + p.2.2 * q.2.2

/-- Cross product, as computed by `np.cross`. -/
def cross3 (p q : V3 α) : V3 α :=
  (p.2.1 * q.2.2 - p.2.2 * q.2.1,
   p.2.2 * q.1 - p.1 * q.2.2,
   p.1 * q.2.1 - p.2.1 * q.1)

/-- Squared Euclidean norm; `np.linalg.norm v` is `sqrtF (normSq3 v)`. -/
def normSq3 (p : V3 α) : α := p.1 * p.1 + p.2.1 * p.2.1 + p.2.2 * p.2.2

/-- Minimum of a list, seeded with its head (`np.min` on a nonempty axis);
the empty-list default 0 is never reached under the nonemptiness
hypotheses of the theorems below. -/
def listMinD (xs : List α) : α :=
  match xs with
  | [] => 0
  | x :: rest => rest.foldl min x

/-- Maximum of a list, seeded with its head (`np.max` on a nonempty axis). -/
def listMaxD (xs : List α) : α :=
  match xs with
  | [] => 0
  | x :: rest => rest.foldl max x

/-- Coordinate-wise mean of a point list, `data.mean(axis=0)`. -/
def mean3 (pts : List (V3 α)) : V3 α :=
  ((pts.map (fun p => p.1)).sum / (pts.length : α),
   (pts.map (fun p => p.2.1)).sum / (pts.length : α),
   (pts.map (fun p => p.2.2)).sum / (pts.length : α))

/-- Coordinate-wise minimum of a point list, `points.min(axis=0)`. -/
def cmin3 (pts : List (V3 α)) : V3 α :=
  (listMinD (pts.map (fun p => p.1)),
   listMinD (pts.map (fun p => p.2.1)),
   listMinD (pts.map (fun p => p.2.2)))

/-- Coordinate-wise maximum of a point list, `points.max(axis=0)`. -/
def cmax3 (pts : List (V3 α)) : V3 α :=
  (listMaxD (pts.map (fun p => p.1)),
   listMaxD (pts.map (fun p => p.2.1)),
   listMaxD (pts.map (fun p => p.2.2)))

/-- Output of a call to `np.linalg.svd` on an N×3 matrix, keeping the data
the code reads: the singular values `dd` (descending in numpy) and the rows
`vv` of the right factor (the principal directions). -/
structure SVDOut3 (α : Type) where
  dd : Fin 3 → α
  vv : Fin 3 → V3 α

/-- Normalisation `v / np.linalg.norm(v)` with the square root passed in. -/
def normalize3 (sqrtF : α → α) (v : V3 α) : V3 α :=
  smul3 (1 / sqrtF (normSq3 v)) v

end Vec

section Fitters

variable {α : Type} [LinearOrderedField α]

/-- The data attached to the object returned by `fitLine`: the two segment
endpoints `p1`, `p2` and the extra fields `slope`, `center`, `variances`. -/
structure LineFit (α : Type) where
  p1 : V3 α
  p2 : V3 α
  slope : V3 α
  center : V3 α
  variances : Fin 3 → α

/-- `fitLine` (pointcloud.py lines 446-472): centroid, SVD of the centered
data (via the oracle `svdO`), normalised first principal direction, and the
endpoints `datamean ∓ a·vv` / `datamean ± b·vv` where `a`, `b` are the
Euclidean distances from the centroid to the coordinate-wise min and max
corners of the data. -/
def fitLine (sqrtF : α → α) (svdO : List (V3 α) → SVDOut3 α)
    (points : List (V3 α)) : LineFit α :=
  let datamean := mean3 points
  let res := svdO (points.map (fun p => sub3 p datamean))
  let vv := normalize3 sqrtF (res.vv 0)
  let a := sqrtF (normSq3 (sub3 (cmin3 points) datamean))
  let b := sqrtF (normSq3 (sub3 (cmax3 points) datamean))
  { p1 := sub3 datamean (smul3 a vv),
    p2 := add3 datamean (smul3 b vv),
    slope := vv,
    center := datamean,
    variances := res.dd }

/-- The data attached to the object returned by `fitPlane`: the plane passed
to the `Plane` constructor is `Plane(datamean, n, s, s)`, recorded here as
center, normal and the two extent parameters `sx`, `sy`. -/
structure PlaneFit (α : Type) where
  normal : V3 α
  center : V3 α
  variance : α
  sx : α
  sy : α

/-- `fitPlane` (pointcloud.py lines 475-498): centroid, SVD of the centered
data, normal as the cross product of the first two right-singular rows,
extent `s = np.linalg.norm(xyz_max - xyz_min)` and `variance = dd[2]`. -/
def fitPlane (sqrtF : α → α) (svdO : List (V3 α) → SVDOut3 α)
    (points : List (V3 α)) : PlaneFit α :=
  let datamean := mean3 points
  let res := svdO (points.map (fun p => sub3 p datamean))
  let n := cross3 (res.vv 0) (res.vv 1)
  let s := sqrtF (normSq3 (sub3 (cmax3 points) (cmin3 points)))
  { normal := n,
    center := datamean,
    variance := res.dd 2,
    sx := s,
    sy := s }

/-- The coefficient matrix `A` of the sphere fit (pointcloud.py lines
515-517): `A[:, :3] = coords * 2`, `A[:, 3] = 1`. -/
def sphereA (n : ℕ) (pts : Fin n → V3 α) : Matrix (Fin n) (Fin 4) α :=
  Matrix.of fun i j =>
    ![2 * (pts i).1, 2 * (pts i).2.1, 2 * (pts i).2.2, 1] j

/-- The right-hand side `f` of the sphere fit (pointcloud.py line 522):
`f[:, 0] = x*x + y*y + z*z`. -/
def sphereF (n : ℕ) (pts : Fin n → V3 α) : Fin n → α := fun i =>
  (pts i).1 * (pts i).1 + (pts i).2.1 * (pts i).2.1 + (pts i).2.2 * (pts i).2.2

/-- Sum of squared residuals of a candidate solution of `A·C = f`. -/
def residSq (n : ℕ) (A : Matrix (Fin n) (Fin 4) α) (f : Fin n → α)
    (C : Fin 4 → α) : α :=
  ∑ i, (A.mulVec C i - f i) ^ 2

/-- `C` is a least-squares solution of `A·C = f`: it minimises the sum of
squared residuals.  This is the defining property of the solution returned
by `np.linalg.lstsq`. -/
def IsLstsqSol (n : ℕ) (A : Matrix (Fin n) (Fin 4) α) (f : Fin n → α)
    (C : Fin 4 → α) : Prop :=
  ∀ D : Fin 4 → α, residSq n A f C ≤ residSq n A f D

/-- The tuple returned by `np.linalg.lstsq(A, f)` as read by `fitSphere`:
the solution column `C`, the residual array (empty or a singleton) and the
reported rank of `A`. -/
structure LstsqOut (α : Type) where
  C : Fin 4 → α
  residue : List α
  rank : ℕ

/-- The data attached to the object returned by `fitSphere`. -/
structure SphereFit (α : Type) where
  center : V3 α
  radius : α
  residue : α

/-- `fitSphere` (pointcloud.py lines 501-538): solve `A·C = f` by least
squares (the solver output is the parameter `out`), return `None` when the
reported rank is below 4, otherwise build the sphere with center
`(C[0], C[1], C[2])` and radius `sqrt(C[0]² + C[1]² + C[2]² + C[3])`. -/
def fitSphere (sqrtF : α → α) (n : ℕ) (pts : Fin n → V3 α)
    (out : LstsqOut α) : Option (SphereFit α) :=
  if out.rank < 4 then none
  else
    let t := out.C 0 * out.C 0 + out.C 1 * out.C 1 + out.C 2 * out.C 2 + out.C 3
    let residue : α :=
      match out.residue with
      | [] => 0
      | r :: _ => sqrtF r / (n : α)
    some { center := (out.C 0, out.C 1, out.C 2),
           radius := sqrtF t,
           residue := residue }

/-- The input points all lie on a common plane `a·x + b·y + c·z = d` with a
nonzero normal `(a, b, c)`. -/
def CoplanarPts (n : ℕ) (pts : Fin n → V3 α) : Prop :=
  ∃ a b c d : α, ¬(a = 0 ∧ b = 0 ∧ c = 0) ∧
    ∀ i, a * (pts i).1 + b * (pts i).2.1 + c * (pts i).2.2 = d

/-- The data attached to the object returned by `fitEllipsoid`: centroid,
semi-axes `va ≥ vb ≥ vc` and the retained sample count. -/
structure EllipsoidFit (α : Type) where
  center : V3 α
  va : α
  vb : α
  vc : α
  nr_of_points : ℕ

/-- `fitEllipsoid` (pointcloud.py lines 541-601): bail out with `None` when
fewer than 4 points are supplied; otherwise scale the singular values of the
covariance matrix (SVD modelled by the oracle `svdO`, the F-distribution
percent point function by the oracle `fppfO`) into semi-axes. -/
def fitEllipsoid (sqrtF : α → α) (fppfO : α → ℕ → ℕ → α)
    (svdO : List (V3 α) → SVDOut3 α) (points : List (V3 α))
    (pvalue : α) : Option (EllipsoidFit α) :=
  if points.length < 4 then none
  else
    let n := points.length
    let res := svdO points
    let p : ℕ := 3
    let fppf := fppfO pvalue p (n - p) * ((n : α) - 1) * (p : α) * ((n : α) + 1)
      / (n : α) / ((n : α) - (p : α))
    let cfac := 1 + 6 / ((n : α) - 1)
    some { center := mean3 points,
           va := sqrtF (res.dd 0 * fppf) / cfac,
           vb := sqrtF (res.dd 1 * fppf) / cfac,
           vc := sqrtF (res.dd 2 * fppf) / cfac,
           nr_of_points := n }

end Fitters

section PointStore

variable {α : Type} [LinearOrderedField α] [DecidableEq α]

/-- The 4×4 actor matrix of a `Points` object (its pose). -/
abbrev PoseM (α : Type) := Matrix (Fin 4) (Fin 4) α

/-- Application of the homogeneous 4×4 actor matrix to a 3D point, as done
by `vtkTransformPolyDataFilter` with `transform.SetMatrix(M)`. -/
def applyPose (M : PoseM α) (p : V3 α) : V3 α :=
  (M 0 0 * p.1 + M 0 1 * p.2.1 + M 0 2 * p.2.2 + M 0 3,
   M 1 0 * p.1 + M 1 1 * p.2.1 + M 1 2 * p.2.2 + M 1 3,
   M 2 0 * p.1 + M 2 1 * p.2.1 + M 2 2 * p.2.2 + M 2 3)

/-- The state of a `Points` object that the coordinate getter and setter
touch: the raw polydata buffer and the actor matrix (pose). -/
structure PtState (α : Type) where
  raw : List (V3 α)
  pose : PoseM α

/-- `Points.polydata(transformed)` (pointcloud.py lines 935-961): with
`transformed=True`, return the raw buffer unchanged when the actor matrix is
the identity (`GetIsIdentity`) or the buffer is empty, otherwise the buffer
with the actor matrix applied to every point; with `transformed=False`,
always the raw buffer. -/
def polydataT (st : PtState α) (transformed : Bool) : List (V3 α) :=
  if transformed then
    if st.pose = 1 ∨ st.raw.length = 0 then st.raw
    else st.raw.map (applyPose st.pose)
  else st.raw

/-- The getter path of `Points.points()` (pointcloud.py lines 975-985):
read the coordinates of `polydata(transformed=True)`. -/
def pointsGet (st : PtState α) : List (V3 α) :=
  polydataT st true

/-- The setter path of `Points.points(pts)` (pointcloud.py lines 991-1001):
replace the raw buffer and poke the identity matrix into the actor
(`self.PokeMatrix(vtk.vtkMatrix4x4())`), resetting the pose. -/
def pointsSet (_st : PtState α) (pts : List (V3 α)) : PtState α :=
  { raw := pts, pose := 1 }

end PointStore

section MLS

variable {α : Type} [LinearOrderedField α] [FloorRing α] [DecidableEq α]

/-- Python `int()` applied to a number: truncation toward zero. -/
def pyInt (x : α) : ℤ :=
  if 0 ≤ x then ⌊x⌋ else -⌊-x⌋

/-- Python truthiness of the optional `radius` argument: `None`, `0` and
`0.0` are falsy, every other number is truthy. -/
def pyTruthy (radius : Option α) : Bool :=
  match radius with
  | none => false
  | some r => if r = 0 then false else true

/-- The spatial queries backing `Points.closestPoint`: the point locator's
`FindClosestNPoints` and `FindPointsWithinRadius`, and the cell locator's
single-closest-point query.  The concrete kd-tree answers are external
(VTK), so the locator is an oracle record. -/
structure Locator (α : Type) where
  knn : ℤ → V3 α → List (V3 α)
  inRadius : α → V3 α → List (V3 α)
  closestSingle : V3 α → V3 α

/-- `Points.closestPoint` (pointcloud.py lines 1872-1928): when `N > 1` or
`radius` is truthy, use the point locator — `FindClosestNPoints` if `N > 1`,
else `FindPointsWithinRadius`; otherwise fall back to the single
closest-point query. -/
def closestPoint (loc : Locator α) (pt : V3 α) (N : ℤ)
    (radius : Option α) : List (V3 α) :=
  if 1 < N ∨ pyTruthy radius = true then
    if 1 < N then loc.knn N pt
    else loc.inRadius (radius.getD 0) pt
  else [loc.closestSingle pt]

/-- Neighborhood count of `smoothMLS1D` (pointcloud.py lines 1947-1953):
`0` when a radius is given, otherwise `int(ncoords * f / 10)` clamped up
to 5. -/
def mls1dNcp (ncoords : ℕ) (f : α) (radius : Option α) : ℤ :=
  if pyTruthy radius = true then 0
  else
    let n := pyInt ((ncoords : α) * f / 10)
    if n < 5 then 5 else n

/-- Neighborhood count of `smoothMLS2D` (pointcloud.py lines 1988-1994):
`0` when a radius is given, otherwise `int(ncoords * f / 100)` clamped up
to 5. -/
def mls2dNcp (ncoords : ℕ) (f : α) (radius : Option α) : ℤ :=
  if pyTruthy radius = true then 0
  else
    let n := pyInt ((ncoords : α) * f / 100)
    if n < 5 then 5 else n

/-- The projected point emitted by one non-skipped iteration of
`smoothMLS1D` (pointcloud.py lines 1962-1965): the projection of `p` onto
the line through the neighborhood mean along the first principal direction
of the centered neighborhood. -/
def mls1dProj (svdO : List (V3 α) → SVDOut3 α) (p : V3 α)
    (points : List (V3 α)) : V3 α :=
  let pointsmean := mean3 points
  let res := svdO (points.map (fun q => sub3 q pointsmean))
  add3 (smul3 (dot3 (sub3 p pointsmean) (res.vv 0)) (res.vv 0)) pointsmean

/-- The residual emitted by one non-skipped iteration of `smoothMLS1D`
(pointcloud.py line 1966): `dd[1] + dd[2]`. -/
def mls1dVar (svdO : List (V3 α) → SVDOut3 α) (points : List (V3 α)) : α :=
  let res := svdO (points.map (fun q => sub3 q (mean3 points)))
  res.dd 1 + res.dd 2

/-- The projected point emitted by one non-skipped iteration of
`smoothMLS2D` (pointcloud.py lines 2005-2009): the projection of `p` onto
the local tangent plane along its normal `cross(vv[0], vv[1])`. -/
def mls2dProj (svdO : List (V3 α) → SVDOut3 α) (p : V3 α)
    (pts : List (V3 α)) : V3 α :=
  let ptsmean := mean3 pts
  let res := svdO (pts.map (fun q => sub3 q ptsmean))
  let cv := cross3 (res.vv 0) (res.vv 1)
  let t := (dot3 cv ptsmean - dot3 cv p) / dot3 cv cv
  add3 p (smul3 t cv)

/-- The residual emitted by one non-skipped iteration of `smoothMLS2D`
(pointcloud.py line 2011): `dd[2]`. -/
def mls2dVar (svdO : List (V3 α) → SVDOut3 α) (pts : List (V3 α)) : α :=
  let res := svdO (pts.map (fun q => sub3 q (mean3 pts)))
  res.dd 2

/-- The per-point loop of `smoothMLS1D` (pointcloud.py lines 1955-1968),
returning `(variances, newline)`: a point whose neighborhood has fewer than
4 members is skipped, every other point contributes one variance and one
projected point, in input order. -/
def mls1dLoop (loc : Locator α) (svdO : List (V3 α) → SVDOut3 α) (Ncp : ℤ)
    (radius : Option α) : List (V3 α) → List α × List (V3 α)
  | [] => ([], [])
  | p :: ps =>
    let rest := mls1dLoop loc svdO Ncp radius ps
    let points := closestPoint loc p Ncp radius
    if points.length < 4 then rest
    else (mls1dVar svdO points :: rest.1, mls1dProj svdO p points :: rest.2)

/-- `Points.smoothMLS1D` (pointcloud.py lines 1931-1970), as the pair
`(info['variances'], new coordinates)`. -/
def smoothMLS1D (loc : Locator α) (svdO : List (V3 α) → SVDOut3 α) (f : α)
    (radius : Option α) (coords : List (V3 α)) : List α × List (V3 α) :=
  mls1dLoop loc svdO (mls1dNcp coords.length f radius) radius coords

/-- The per-point loop of `smoothMLS2D` (pointcloud.py lines 1996-2012),
returning `(variances, newpts)`: in radius mode a point whose neighborhood
has fewer than 5 members is skipped, every other point contributes one
variance and one projected point, in input order. -/
def mls2dLoop (loc : Locator α) (svdO : List (V3 α) → SVDOut3 α) (Ncp : ℤ)
    (radius : Option α) : List (V3 α) → List α × List (V3 α)
  | [] => ([], [])
  | p :: ps =>
    let rest := mls2dLoop loc svdO Ncp radius ps
    let pts := closestPoint loc p Ncp radius
    if pyTruthy radius = true ∧ pts.length < 5 then rest
    else (mls2dVar svdO pts :: rest.1, mls2dProj svdO p pts :: rest.2)

/-- `Points.smoothMLS2D` (pointcloud.py lines 1973-2014), as the pair
`(info['variances'], new coordinates)`. -/
def smoothMLS2D (loc : Locator α) (svdO : List (V3 α) → SVDOut3 α) (f : α)
    (radius : Option α) (coords : List (V3 α)) : List α × List (V3 α) :=
  mls2dLoop loc svdO (mls2dNcp coords.length f radius) radius coords

end MLS

section MLSLemmas

variable {α : Type} [LinearOrderedField α] [FloorRing α] [DecidableEq α]

/-- The keep condition of the 1D smoothing loop: the neighborhood returned
for the point has at least 4 members. -/
def mls1dKeep (loc : Locator α) (Ncp : ℤ) (radius : Option α)
    (p : V3 α) : Bool :=
  !decide ((closestPoint loc p Ncp radius).length < 4)

/-- The keep condition of the 2D smoothing loop: not (radius mode with a
neighborhood of fewer than 5 members). -/
def mls2dKeep (loc : Locator α) (Ncp : ℤ) (radius : Option α)
    (p : V3 α) : Bool :=
  !decide (pyTruthy radius = true ∧ (closestPoint loc p Ncp radius).length < 5)

lemma mls1dLoop_eq (loc : Locator α) (svdO : List (V3 α) → SVDOut3 α)
    (Ncp : ℤ) (radius : Option α) (coords : List (V3 α)) :
    mls1dLoop loc svdO Ncp radius coords =
      ((coords.filter (mls1dKeep loc Ncp radius)).map
        (fun p => mls1dVar svdO (closestPoint loc p Ncp radius)),
       (coords.filter (mls1dKeep loc Ncp radius)).map
        (fun p => mls1dProj svdO p (closestPoint loc p Ncp radius))) := by
  induction coords with
  | nil => rfl
  | cons p ps ih =>
    by_cases h : (closestPoint loc p Ncp radius).length < 4
    · simp [mls1dLoop, ih, List.filter_cons, mls1dKeep, h]
    · simp [mls1dLoop, ih, List.filter_cons, mls1dKeep, h]

lemma mls2dLoop_eq (loc : Locator α) (svdO : List (V3 α) → SVDOut3 α)
    (Ncp : ℤ) (radius : Option α) (coords : List (V3 α)) :
    mls2dLoop loc svdO Ncp radius coords =
      ((coords.filter (mls2dKeep loc Ncp radius)).map
        (fun p => mls2dVar svdO (closestPoint loc p Ncp radius)),
       (coords.filter (mls2dKeep loc Ncp radius)).map
        (fun p => mls2dProj svdO p (closestPoint loc p Ncp radius))) := by
  induction coords with
  | nil => rfl
  | cons p ps ih =>
    by_cases h : pyTruthy radius = true ∧ (closestPoint loc p Ncp radius).length < 5
    · simp [mls2dLoop, ih, List.filter_cons, mls2dKeep, h]
    · simp [mls2dLoop, ih, List.filter_cons, mls2dKeep, h]

end MLSLemmas

section ClaimC5

variable {α : Type} [LinearOrderedField α] [DecidableEq α]

/-- C5: after replacing a point set's coordinates via the points setter, the
pose (actor matrix) equals the identity, so reading pose-applied
(transformed) coordinates immediately afterward returns exactly the new raw
buffer — no residual translation, rotation or scale survives the edit. -/
theorem pointsSet_resets_pose (st : PtState α) (pts : List (V3 α)) :
    (pointsSet st pts).pose = 1 ∧ pointsGet (pointsSet st pts) = pts := by
  refine ⟨rfl, ?_⟩
  simp [pointsGet, polydataT, pointsSet]

end ClaimC5

section ClaimC6

/-- C6 counterexample: with 59 input points, smoothing factor `f = 1` and no
radius, the code computes a neighborhood count of `int(59 * 1 / 10) = 5`,
while the claimed formula `max(5, round(N * f / 10))` gives `6`. -/
theorem mls1dNcp_round_counterexample :
    mls1dNcp 59 (1 : ℚ) none ≠ max 5 (round ((59 : ℚ) * 1 / 10)) := by
  have hcode : mls1dNcp 59 (1 : ℚ) none = 5 := by
    rw [mls1dNcp]
    norm_num [pyTruthy, pyInt]
  have hclaim : round ((59 : ℚ) * 1 / 10) = 6 := by
    rw [round_eq]
    norm_num
  rw [hcode, hclaim]
  decide

/-- C6 amended: with no radius given, the per-point neighborhood count used
by `smoothMLS1D` equals `max(5, int(N * f / 10))`, where `int` is Python
truncation toward zero (not rounding to nearest). -/
theorem smoothMLS1D_Ncp {α : Type} [LinearOrderedField α] [FloorRing α]
    [DecidableEq α] (loc : Locator α) (svdO : List (V3 α) → SVDOut3 α)
    (f : α) (coords : List (V3 α)) :
    mls1dNcp coords.length f none = max 5 (pyInt ((coords.length : α) * f / 10)) ∧
    smoothMLS1D loc svdO f none coords =
      mls1dLoop loc svdO (max 5 (pyInt ((coords.length : α) * f / 10))) none
        coords := by
  have h : mls1dNcp coords.length f none
      = max 5 (pyInt ((coords.length : α) * f / 10)) := by
    rw [mls1dNcp]
    simp only [pyTruthy, Bool.false_eq_true, if_false]
    rcases lt_or_le (pyInt ((coords.length : α) * f / 10)) 5 with hlt | hle
    · rw [if_pos hlt, max_eq_left hlt.le]
    · rw [if_neg (not_lt.mpr hle), max_eq_right hle]
  exact ⟨h, by rw [smoothMLS1D, h]⟩

end ClaimC6

section ClaimC7

variable {α : Type} [LinearOrderedField α] [FloorRing α] [DecidableEq α]

/-- C7: neither MLS smoother aborts on a too-small neighborhood.  The 1D
output is exactly the projection of every input point whose neighborhood has
at least 4 members (points below that are omitted, all others processed, in
order), the 2D output is exactly the projection of every input point not
skipped by the radius-mode fewer-than-5 test, and consequently each output
point count is at most the input point count. -/
theorem mls_skip_is_local (loc : Locator α) (svdO : List (V3 α) → SVDOut3 α)
    (f : α) (radius : Option α) (coords : List (V3 α)) :
    ((smoothMLS1D loc svdO f radius coords).2 =
      (coords.filter (mls1dKeep loc (mls1dNcp coords.length f radius) radius)).map
        (fun p => mls1dProj svdO p
          (closestPoint loc p (mls1dNcp coords.length f radius) radius))) ∧
    (smoothMLS1D loc svdO f radius coords).2.length ≤ coords.length ∧
    ((smoothMLS2D loc svdO f radius coords).2 =
      (coords.filter (mls2dKeep loc (mls2dNcp coords.length f radius) radius)).map
        (fun p => mls2dProj svdO p
          (closestPoint loc p (mls2dNcp coords.length f radius) radius))) ∧
    (smoothMLS2D loc svdO f radius coords).2.length ≤ coords.length := by
  have h1 := mls1dLoop_eq loc svdO (mls1dNcp coords.length f radius) radius coords
  have h2 := mls2dLoop_eq loc svdO (mls2dNcp coords.length f radius) radius coords
  refine ⟨?_, ?_, ?_, ?_⟩
  · rw [smoothMLS1D, h1]
  · rw [smoothMLS1D, h1]
    simpa using List.length_filter_le _ coords
  · rw [smoothMLS2D, h2]
  · rw [smoothMLS2D, h2]
    simpa using List.length_filter_le _ coords

end ClaimC7

section ClaimC9

variable {α : Type} [LinearOrderedField α] [FloorRing α] [DecidableEq α]

/-- C9: when a positive radius is given, the smoothing factor `f` has no
influence: two runs of `smoothMLS1D` (resp. `smoothMLS2D`) with the same
radius and different factors produce identical outputs (both the emitted
points and the residual list). -/
theorem mls_radius_ignores_f (loc : Locator α)
    (svdO : List (V3 α) → SVDOut3 α) (coords : List (V3 α)) (r f1 f2 : α)
    (hr : 0 < r) :
    smoothMLS1D loc svdO f1 (some r) coords
        = smoothMLS1D loc svdO f2 (some r) coords ∧
    smoothMLS2D loc svdO f1 (some r) coords
        = smoothMLS2D loc svdO f2 (some r) coords := by
  have ht : pyTruthy (some r) = true := by
    simp [pyTruthy, ne_of_gt hr]
  have h1 : ∀ g : α, mls1dNcp coords.length g (some r) = 0 := fun g => by
    simp [mls1dNcp, ht]
  have h2 : ∀ g : α, mls2dNcp coords.length g (some r) = 0 := fun g => by
    simp [mls2dNcp, ht]
  constructor
  · rw [smoothMLS1D, smoothMLS1D, h1 f1, h1 f2]
  · rw [smoothMLS2D, smoothMLS2D, h2 f1, h2 f2]

/-- A concrete locator oracle over `ℚ` used by the closed witnesses. -/
def wloc : Locator ℚ :=
  { knn := fun _ _ => [],
    inRadius := fun _ p => [p, p, p, p, p],
    closestSingle := fun p => p }

/-- A concrete SVD oracle over `ℚ` used by the closed witnesses. -/
def wsvdQ : List (V3 ℚ) → SVDOut3 ℚ := fun _ =>
  { dd := ![2, 1, 0], vv := ![(1, 0, 0), (0, 1, 0), (0, 0, 1)] }

/-- C9 witness: the radius-precedence theorem applied at a concrete cloud,
radius 1, and factors 0 and 7. -/
theorem mls_radius_ignores_f_witness :
    (0 : ℚ) < 1 ∧
    (smoothMLS1D wloc wsvdQ (0 : ℚ) (some 1) [(0, 0, 0), (1, 1, 1)]
        = smoothMLS1D wloc wsvdQ 7 (some 1) [(0, 0, 0), (1, 1, 1)] ∧
     smoothMLS2D wloc wsvdQ (0 : ℚ) (some 1) [(0, 0, 0), (1, 1, 1)]
        = smoothMLS2D wloc wsvdQ 7 (some 1) [(0, 0, 0), (1, 1, 1)]) :=
  ⟨by norm_num,
   mls_radius_ignores_f wloc wsvdQ [(0, 0, 0), (1, 1, 1)] 1 0 7 (by norm_num)⟩

end ClaimC9

section ClaimC10

variable {α : Type} [LinearOrderedField α] [FloorRing α] [DecidableEq α]

/-- C10: after either smoother, the stored residual list is parallel to the
emitted point list: both are images of the same filtered subsequence of the
input (the kept points, in input order), so they have the same length and
the i-th residual is the one computed from the i-th emitted point's
neighborhood, in emission order. -/
theorem mls_variances_parallel (loc : Locator α)
    (svdO : List (V3 α) → SVDOut3 α) (f : α) (radius : Option α)
    (coords : List (V3 α)) :
    ((smoothMLS1D loc svdO f radius coords).1 =
      (coords.filter (mls1dKeep loc (mls1dNcp coords.length f radius) radius)).map
        (fun p => mls1dVar svdO
          (closestPoint loc p (mls1dNcp coords.length f radius) radius))) ∧
    ((smoothMLS1D loc svdO f radius coords).2 =
      (coords.filter (mls1dKeep loc (mls1dNcp coords.length f radius) radius)).map
        (fun p => mls1dProj svdO p
          (closestPoint loc p (mls1dNcp coords.length f radius) radius))) ∧
    (smoothMLS1D loc svdO f radius coords).1.length
        = (smoothMLS1D loc svdO f radius coords).2.length ∧
    ((smoothMLS2D loc svdO f radius coords).1 =
      (coords.filter (mls2dKeep loc (mls2dNcp coords.length f radius) radius)).map
        (fun p => mls2dVar svdO
          (closestPoint loc p (mls2dNcp coords.length f radius) radius))) ∧
    ((smoothMLS2D loc svdO f radius coords).2 =
      (coords.filter (mls2dKeep loc (mls2dNcp coords.length f radius) radius)).map
        (fun p => mls2dProj svdO p
          (closestPoint loc p (mls2dNcp coords.length f radius) radius))) ∧
    (smoothMLS2D loc svdO f radius coords).1.length
        = (smoothMLS2D loc svdO f radius coords).2.length := by
  have h1 := mls1dLoop_eq loc svdO (mls1dNcp coords.length f radius) radius coords
  have h2 := mls2dLoop_eq loc svdO (mls2dNcp coords.length f radius) radius coords
  refine ⟨?_, ?_, ?_, ?_, ?_, ?_⟩
  · rw [smoothMLS1D, h1]
  · rw [smoothMLS1D, h1]
  · rw [smoothMLS1D, h1]
    simp
  · rw [smoothMLS2D, h2]
  · rw [smoothMLS2D, h2]
  · rw [smoothMLS2D, h2]
    simp

end ClaimC10

section ClaimC8

/-- C8: `fitEllipsoid` on fewer than 4 points fails with the explicit
`None` marker (the `InsufficientPoints` failure of the spec's taxonomy) and
returns no ellipsoid; the embedding is a total function, so the failure is
scoped to the call. -/
theorem fitEllipsoid_insufficient {α : Type} [LinearOrderedField α]
    (sqrtF : α → α) (fppfO : α → ℕ → ℕ → α)
    (svdO : List (V3 α) → SVDOut3 α) (points : List (V3 α)) (pvalue : α)
    (h : points.length < 4) :
    fitEllipsoid sqrtF fppfO svdO points pvalue = none := by
  rw [fitEllipsoid, if_pos h]

/-- C8 witness: `fitEllipsoid` on a concrete 3-point cloud returns `None`. -/
theorem fitEllipsoid_insufficient_witness :
    ([((0 : ℚ), 0, 0), (1, 0, 0), (0, 1, 0)] : List (V3 ℚ)).length < 4 ∧
    fitEllipsoid (fun x => x) (fun _ _ _ => 0) wsvdQ
      [((0 : ℚ), 0, 0), (1, 0, 0), (0, 1, 0)] (95 / 100) = none :=
  ⟨by decide,
   fitEllipsoid_insufficient (fun x => x) (fun _ _ _ => 0) wsvdQ
     [((0 : ℚ), 0, 0), (1, 0, 0), (0, 1, 0)] (95 / 100) (by decide)⟩

end ClaimC8

section SphereLemmas

variable {α : Type} [LinearOrderedField α]

lemma residSq_nonneg (n : ℕ) (A : Matrix (Fin n) (Fin 4) α) (f : Fin n → α)
    (C : Fin 4 → α) : 0 ≤ residSq n A f C :=
  Finset.sum_nonneg fun _ _ => sq_nonneg _

lemma rank_lt_four_of_coplanar (n : ℕ) (pts : Fin n → V3 α)
    (h : CoplanarPts n pts) : (sphereA n pts).rank < 4 := by
  obtain ⟨a, b, c, d, hnz, hpl⟩ := h
  have hv : (sphereA n pts).mulVec ![a, b, c, -2 * d] = 0 := by
    funext i
    simp [sphereA, Matrix.mulVec, Matrix.dotProduct, Fin.sum_univ_four]
    nlinarith [hpl i]
  have hvne : (![a, b, c, -2 * d] : Fin 4 → α) ≠ 0 := by
    intro h0
    apply hnz
    refine ⟨?_, ?_, ?_⟩
    · have := congrFun h0 0; simpa using this
    · have := congrFun h0 1; simpa using this
    · have := congrFun h0 2; simpa using this
  have hker : 0 < Module.finrank α (LinearMap.ker (sphereA n pts).mulVecLin) := by
    rw [Module.finrank_pos_iff_exists_ne_zero]
    refine ⟨⟨![a, b, c, -2 * d], ?_⟩, ?_⟩
    · rw [LinearMap.mem_ker, Matrix.mulVecLin_apply, hv]
    · simp only [ne_eq, Submodule.mk_eq_zero]
      exact hvne
  have hrn := LinearMap.finrank_range_add_finrank_ker (sphereA n pts).mulVecLin
  rw [Module.finrank_fin_fun] at hrn
  have hrk : (sphereA n pts).rank
      = Module.finrank α (LinearMap.range (sphereA n pts).mulVecLin) := rfl
  omega

/-- Four concrete points on the unit sphere centered at the origin,
used by the C1 witness. -/
def wpts : Fin 4 → V3 ℚ := ![(1, 0, 0), (-1, 0, 0), (0, 1, 0), (0, 0, 1)]

lemma wpts_mat :
    sphereA 4 wpts = !![2, 0, 0, 1; -2, 0, 0, 1; 0, 2, 0, 1; 0, 0, 2, 1] := by
  ext i j
  fin_cases i <;> fin_cases j <;>
    simp [sphereA, wpts, Matrix.vecHead, Matrix.vecTail]

lemma wpts_det : (sphereA 4 wpts).det ≠ 0 := by
  rw [wpts_mat]
  norm_num [Matrix.det_succ_row_zero, Fin.sum_univ_succ, Matrix.vecHead,
    Matrix.vecTail, Fin.castSucc, Fin.castAdd, Fin.castLE]

lemma wpts_rank : (sphereA 4 wpts).rank = 4 := by
  rw [Matrix.rank_of_isUnit]
  · rfl
  · rw [Matrix.isUnit_iff_isUnit_det]
    exact isUnit_iff_ne_zero.mpr wpts_det

lemma wpts_resid :
    residSq 4 (sphereA 4 wpts) (sphereF 4 wpts) ![0, 0, 0, 1] = 0 := by
  norm_num [residSq, sphereA, sphereF, wpts, Matrix.mulVec, Matrix.dotProduct,
    Fin.sum_univ_four, Matrix.vecHead, Matrix.vecTail]

/-- Four concrete coplanar points (all on the plane z = 0), used by the C2
witness. -/
def wpts2 : Fin 4 → V3 ℚ := ![(0, 0, 0), (1, 0, 0), (0, 1, 0), (1, 1, 0)]

end SphereLemmas

section ClaimC1

/-- C1: when the reported rank of the sphere-fit system (which the model
ties to the mathematical rank of the coefficient matrix) is at least 4 and
`C` is a least-squares solution of `A·C = f`, `fitSphere` returns a sphere
with center `(C[0], C[1], C[2])` and radius
`sqrt(C[0]² + C[1]² + C[2]² + C[3])`; and the system rows are exactly
`(2x, 2y, 2z, 1)` with right-hand side `x² + y² + z²`. -/
theorem fitSphere_least_squares {α : Type} [LinearOrderedField α]
    (sqrtF : α → α) (n : ℕ) (pts : Fin n → V3 α) (out : LstsqOut α)
    (hrank_eq : out.rank = (sphereA n pts).rank)
    (hrank : 4 ≤ (sphereA n pts).rank)
    (hsol : IsLstsqSol n (sphereA n pts) (sphereF n pts) out.C) :
    (∀ i, sphereA n pts i 0 = 2 * (pts i).1 ∧
          sphereA n pts i 1 = 2 * (pts i).2.1 ∧
          sphereA n pts i 2 = 2 * (pts i).2.2 ∧
          sphereA n pts i 3 = 1 ∧
          sphereF n pts i
            = (pts i).1 ^ 2 + (pts i).2.1 ^ 2 + (pts i).2.2 ^ 2) ∧
    ∃ s, fitSphere sqrtF n pts out = some s ∧
      s.center = (out.C 0, out.C 1, out.C 2) ∧
      s.radius = sqrtF (out.C 0 * out.C 0 + out.C 1 * out.C 1
        + out.C 2 * out.C 2 + out.C 3) := by
  constructor
  · intro i
    refine ⟨rfl, ?_, ?_, ?_, ?_⟩
    · simp [sphereA, Matrix.vecHead, Matrix.vecTail]
    · simp [sphereA, Matrix.vecHead, Matrix.vecTail]
    · simp [sphereA, Matrix.vecHead, Matrix.vecTail]
    · simp [sphereF]
      ring
  · have hne : ¬ out.rank < 4 := by omega
    rw [fitSphere, if_neg hne]
    exact ⟨_, rfl, rfl, rfl⟩

/-- C1 witness: the theorem applied to four points on the unit sphere, the
exact solution `C = (0, 0, 0, 1)`, and the identity in place of `sqrt`. -/
theorem fitSphere_least_squares_witness :
    ({ C := ![0, 0, 0, 1], residue := [],
       rank := (sphereA 4 wpts).rank } : LstsqOut ℚ).rank
        = (sphereA 4 wpts).rank ∧
    4 ≤ (sphereA 4 wpts).rank ∧
    IsLstsqSol 4 (sphereA 4 wpts) (sphereF 4 wpts) ![0, 0, 0, 1] ∧
    (∃ s, fitSphere (fun x => x) 4 wpts
        { C := ![0, 0, 0, 1], residue := [], rank := (sphereA 4 wpts).rank }
        = some s ∧
      s.center = ((0 : ℚ), 0, 0) ∧ s.radius = 1) := by
  have hsol : IsLstsqSol 4 (sphereA 4 wpts) (sphereF 4 wpts) ![0, 0, 0, 1] := by
    intro D
    rw [wpts_resid]
    exact residSq_nonneg 4 _ _ D
  have hge : 4 ≤ (sphereA 4 wpts).rank := by rw [wpts_rank]
  refine ⟨rfl, hge, hsol, ?_⟩
  obtain ⟨s, hs, hc, hr⟩ :=
    (fitSphere_least_squares (fun x => x) 4 wpts
      { C := ![0, 0, 0, 1], residue := [], rank := (sphereA 4 wpts).rank }
      rfl hge hsol).2
  refine ⟨s, hs, ?_, ?_⟩
  · rw [hc]
    norm_num [Matrix.vecHead, Matrix.vecTail]
  · rw [hr]
    norm_num [Matrix.vecHead, Matrix.vecTail]

end ClaimC1

section ClaimC2

/-- C2: when the sphere-fit coefficient matrix has rank below 4 — in
particular whenever the input points are coplanar — `fitSphere` returns the
explicit failure marker `none` (the spec's `RankDeficient`) and never a
sphere object. -/
theorem fitSphere_rank_deficient {α : Type} [LinearOrderedField α]
    (sqrtF : α → α) (n : ℕ) (pts : Fin n → V3 α) (out : LstsqOut α)
    (hrank_eq : out.rank = (sphereA n pts).rank) :
    ((sphereA n pts).rank < 4 → fitSphere sqrtF n pts out = none) ∧
    (CoplanarPts n pts → fitSphere sqrtF n pts out = none) := by
  have hbase : (sphereA n pts).rank < 4 → fitSphere sqrtF n pts out = none := by
    intro h
    rw [fitSphere, if_pos (by omega)]
  exact ⟨hbase, fun hco => hbase (rank_lt_four_of_coplanar n pts hco)⟩

/-- C2 witness: the theorem applied to four concrete coplanar points (all
with z = 0): the fit returns `none`. -/
theorem fitSphere_rank_deficient_witness :
    CoplanarPts 4 wpts2 ∧
    fitSphere (fun x => x) 4 wpts2
      { C := ![0, 0, 0, 0], residue := [],
        rank := (sphereA 4 wpts2).rank } = none := by
  have hcop : CoplanarPts 4 wpts2 := by
    refine ⟨0, 0, 1, 0, by norm_num, ?_⟩
    intro i
    fin_cases i <;> norm_num [wpts2, Matrix.vecHead, Matrix.vecTail]
  exact ⟨hcop,
    (fitSphere_rank_deficient (fun x => x) 4 wpts2
      { C := ![0, 0, 0, 0], residue := [],
        rank := (sphereA 4 wpts2).rank } rfl).2 hcop⟩

end ClaimC2

section ClaimC3

/-- C3: on a non-empty point set, and with the SVD oracle returning
descending singular values (as numpy guarantees), `fitPlane` returns the
coordinate-wise mean of the points as center, the cross product of the
first two right-singular vectors of the mean-centered matrix as normal, the
third (hence smallest) singular value as `min_variance`, and both extent
parameters equal to the diagonal length of the input's axis-aligned
bounding box. -/
theorem fitPlane_spec {α : Type} [LinearOrderedField α] (sqrtF : α → α)
    (svdO : List (V3 α) → SVDOut3 α) (points : List (V3 α))
    (hne : points ≠ [])
    (hdesc : (svdO (points.map (fun p => sub3 p (mean3 points)))).dd 1
        ≤ (svdO (points.map (fun p => sub3 p (mean3 points)))).dd 0 ∧
      (svdO (points.map (fun p => sub3 p (mean3 points)))).dd 2
        ≤ (svdO (points.map (fun p => sub3 p (mean3 points)))).dd 1) :
    (fitPlane sqrtF svdO points).center
      = ((points.map (fun p => p.1)).sum / (points.length : α),
         (points.map (fun p => p.2.1)).sum / (points.length : α),
         (points.map (fun p => p.2.2)).sum / (points.length : α)) ∧
    (fitPlane sqrtF svdO points).normal
      = cross3 ((svdO (points.map (fun p => sub3 p (mean3 points)))).vv 0)
          ((svdO (points.map (fun p => sub3 p (mean3 points)))).vv 1) ∧
    (fitPlane sqrtF svdO points).variance
      = (svdO (points.map (fun p => sub3 p (mean3 points)))).dd 2 ∧
    (∀ i, (fitPlane sqrtF svdO points).variance
      ≤ (svdO (points.map (fun p => sub3 p (mean3 points)))).dd i) ∧
    (fitPlane sqrtF svdO points).sx
      = sqrtF (normSq3 (sub3 (cmax3 points) (cmin3 points))) ∧
    (fitPlane sqrtF svdO points).sy
      = sqrtF (normSq3 (sub3 (cmax3 points) (cmin3 points))) := by
  refine ⟨rfl, rfl, rfl, ?_, rfl, rfl⟩
  intro i
  fin_cases i
  · exact le_trans hdesc.2 hdesc.1
  · exact hdesc.2
  · exact le_refl _

/-- C3 witness: the theorem applied to a concrete 3-point cloud and a
concrete descending SVD oracle. -/
theorem fitPlane_spec_witness :
    (([((0 : ℚ), 0, 0), (2, 0, 0), (0, 2, 0)] : List (V3 ℚ)) ≠ []) ∧
    ((wsvdQ ([((0 : ℚ), 0, 0), (2, 0, 0), (0, 2, 0)].map
        (fun p => sub3 p (mean3 [((0 : ℚ), 0, 0), (2, 0, 0), (0, 2, 0)])))).dd 1
      ≤ (wsvdQ ([((0 : ℚ), 0, 0), (2, 0, 0), (0, 2, 0)].map
        (fun p => sub3 p (mean3 [((0 : ℚ), 0, 0), (2, 0, 0), (0, 2, 0)])))).dd 0 ∧
     (wsvdQ ([((0 : ℚ), 0, 0), (2, 0, 0), (0, 2, 0)].map
        (fun p => sub3 p (mean3 [((0 : ℚ), 0, 0), (2, 0, 0), (0, 2, 0)])))).dd 2
      ≤ (wsvdQ ([((0 : ℚ), 0, 0), (2, 0, 0), (0, 2, 0)].map
        (fun p => sub3 p (mean3 [((0 : ℚ), 0, 0), (2, 0, 0), (0, 2, 0)])))).dd 1) ∧
    (fitPlane (fun x => x) wsvdQ [((0 : ℚ), 0, 0), (2, 0, 0), (0, 2, 0)]).center
      = ((2 : ℚ) / 3, 2 / 3, 0) := by
  have hne : ([((0 : ℚ), 0, 0), (2, 0, 0), (0, 2, 0)] : List (V3 ℚ)) ≠ [] := by
    decide
  have hdesc : (wsvdQ ([((0 : ℚ), 0, 0), (2, 0, 0), (0, 2, 0)].map
        (fun p => sub3 p (mean3 [((0 : ℚ), 0, 0), (2, 0, 0), (0, 2, 0)])))).dd 1
      ≤ (wsvdQ ([((0 : ℚ), 0, 0), (2, 0, 0), (0, 2, 0)].map
        (fun p => sub3 p (mean3 [((0 : ℚ), 0, 0), (2, 0, 0), (0, 2, 0)])))).dd 0 ∧
      (wsvdQ ([((0 : ℚ), 0, 0), (2, 0, 0), (0, 2, 0)].map
        (fun p => sub3 p (mean3 [((0 : ℚ), 0, 0), (2, 0, 0), (0, 2, 0)])))).dd 2
      ≤ (wsvdQ ([((0 : ℚ), 0, 0), (2, 0, 0), (0, 2, 0)].map
        (fun p => sub3 p (mean3 [((0 : ℚ), 0, 0), (2, 0, 0), (0, 2, 0)])))).dd 1 := by
    constructor <;> norm_num [wsvdQ]
  refine ⟨hne, hdesc, ?_⟩
  have h := (fitPlane_spec (fun x => x) wsvdQ
    [((0 : ℚ), 0, 0), (2, 0, 0), (0, 2, 0)] hne hdesc).1
  rw [h]
  norm_num

end ClaimC3

section ClaimC4

variable {α : Type} [LinearOrderedField α]

/-- Stated from claim C4's wording, for comparison with the code: the first
endpoint the claim describes, namely the projection onto the fitted line
(through the centroid, along the unit direction `v`) of the input point
extreme in the `-v` direction: `mean + (min over points of (p - mean)·v)·v`. -/
def specLineP1 (pts : List (V3 α)) (v : V3 α) : V3 α :=
  add3 (mean3 pts)
    (smul3 (listMinD (pts.map (fun p => dot3 (sub3 p (mean3 pts)) v))) v)

/-- Stated from claim C4's wording: the second endpoint, the projection of
the input point extreme in the `+v` direction. -/
def specLineP2 (pts : List (V3 α)) (v : V3 α) : V3 α :=
  add3 (mean3 pts)
    (smul3 (listMaxD (pts.map (fun p => dot3 (sub3 p (mean3 pts)) v))) v)

/-- The empirical spread of the points along a direction: the sum of squared
projections of the centered points onto `u`.  The first right-singular
vector of the centered matrix maximises this over unit vectors. -/
def varAlong (pts : List (V3 α)) (u : V3 α) : α :=
  (pts.map (fun p => dot3 (sub3 p (mean3 pts)) u ^ 2)).sum

/-- Concrete input refuting claim C4: four points whose principal direction
is the x-axis. -/
def cpts : List (V3 ℝ) := [(2, 0, 0), (-2, 0, 0), (0, 1, 0), (0, -1, 0)]

/-- A concrete SVD oracle for `cpts` returning the genuine principal
directions (x-axis first) with descending singular values. -/
def csvdR : List (V3 ℝ) → SVDOut3 ℝ := fun _ =>
  { dd := ![4, 2, 0], vv := ![(1, 0, 0), (0, 1, 0), (0, 0, 1)] }

lemma cpts_first_direction (u : V3 ℝ) (hu : normSq3 u = 1) :
    varAlong cpts u ≤ varAlong cpts ((1 : ℝ), 0, 0) := by
  have hmean : mean3 cpts = ((0 : ℝ), 0, 0) := by
    norm_num [mean3, cpts]
  rw [varAlong, varAlong, hmean]
  simp only [cpts, List.map_cons, List.map_nil, List.sum_cons, List.sum_nil,
    dot3, sub3]
  rw [normSq3] at hu
  nlinarith [sq_nonneg u.1, sq_nonneg u.2.1, sq_nonneg u.2.2]

/-- C4 counterexample: on `cpts`, with the genuine unit fitted direction
`(1,0,0)` (shown in `cpts_first_direction` to maximise the spread over all
unit vectors), the endpoints produced by `fitLine` are `(∓√5, 0, 0)` — the
distances from the centroid to the bounding-box corners — and differ from
the projections `(∓2, 0, 0)` of the extreme input points that the claim
describes. -/
theorem fitLine_claim_counterexample :
    ¬((fitLine Real.sqrt csvdR cpts).p1 = specLineP1 cpts ((1 : ℝ), 0, 0) ∧
      (fitLine Real.sqrt csvdR cpts).p2 = specLineP2 cpts ((1 : ℝ), 0, 0)) := by
  rintro ⟨h1, -⟩
  have hx := congrArg Prod.fst h1
  norm_num [fitLine, specLineP1, cpts, csvdR, normalize3, normSq3, cmin3,
    mean3, listMinD, dot3, sub3, add3, smul3, List.foldl, min_def,
    Real.sqrt_one] at hx
  nlinarith [Real.sq_sqrt (show (0 : ℝ) ≤ 5 by norm_num),
    Real.sqrt_nonneg 5]

/-- C4 amended: the segment returned by `fitLine` runs along the unit fitted
direction through the centroid, but its endpoints are the centroid moved by
the Euclidean distances from the centroid to the coordinate-wise min and max
corners of the input's bounding box (not by the projections of the extreme
input points). -/
theorem fitLine_endpoints (sqrtF : α → α) (svdO : List (V3 α) → SVDOut3 α)
    (points : List (V3 α)) :
    (fitLine sqrtF svdO points).p1
      = sub3 (mean3 points)
          (smul3 (sqrtF (normSq3 (sub3 (cmin3 points) (mean3 points))))
            ((fitLine sqrtF svdO points).slope)) ∧
    (fitLine sqrtF svdO points).p2
      = add3 (mean3 points)
          (smul3 (sqrtF (normSq3 (sub3 (cmax3 points) (mean3 points))))
            ((fitLine sqrtF svdO points).slope)) ∧
    (fitLine sqrtF svdO points).slope
      = normalize3 sqrtF
          ((svdO (points.map (fun p => sub3 p (mean3 points)))).vv 0) ∧
    (fitLine sqrtF svdO points).center = mean3 points :=
  ⟨rfl, rfl, rfl, rfl⟩

end ClaimC4
